import Mathlib

/-!
Shallow embedding of the true-reset-point adjuster of
`receiver/fiddlerreceiver/factory.go` (package `truereset`): the functions
`AdjustMetrics`, `adjustMetricSum`, `adjustMetricHistogram`,
`adjustMetricExponentialHistogram` and `adjustMetricSummary`.

Modelling conventions:
* `pcommon.Timestamp` (uint64 nanoseconds) is modelled as `Nat`.
* `uint64` counts are modelled as `Nat`.
* `float64` values (`DoubleValue()`, `Sum()`) are modelled as `Int`:
  the adjuster never performs arithmetic on them, it only copies them and
  compares them with `<`, so any linearly ordered carrier is faithful to
  the control flow (NaN payloads aside, which are out of scope here).
* the in-place mutation of data points and of the per-series state is
  modelled by explicit state passing: each adjustment step returns the
  updated state table together with the rewritten data point.
-/

namespace TrueReset

/-- Aggregation temporality tag of a sum / histogram stream
(`pmetric.AggregationTemporality`). -/
inductive AggregationTemporality where
  | unspecified
  | delta
  | cumulative
deriving DecidableEq, Repr

/-- A number data point (`pmetric.NumberDataPoint`) as used by sums and
gauges: attributes, start/end timestamps, the double value, and the
`NoRecordedValue` staleness flag. -/
structure NumberDataPoint where
  attributes : List (String × String)
  startTimestamp : Nat
  timestamp : Nat
  doubleValue : Int
  noRecordedValue : Bool
deriving DecidableEq, Repr

/-- A histogram data point (`pmetric.HistogramDataPoint` or
`pmetric.ExponentialHistogramDataPoint`): the adjuster only reads its
attributes, start timestamp, count, sum and staleness flag. -/
structure HistogramDataPoint where
  attributes : List (String × String)
  startTimestamp : Nat
  timestamp : Nat
  count : Nat
  sum : Int
  noRecordedValue : Bool
deriving DecidableEq, Repr

/-- A summary data point (`pmetric.SummaryDataPoint`): attributes, start
timestamp, count, sum and staleness flag. -/
structure SummaryDataPoint where
  attributes : List (String × String)
  startTimestamp : Nat
  timestamp : Nat
  count : Nat
  sum : Int
  noRecordedValue : Bool
deriving DecidableEq, Repr

/-- The payload of one metric stream, tagged by kind
(`pmetric.Metric.Type()`); `empty` stands for `pmetric.MetricTypeEmpty`
and any other unrecognized kind reaching the `default` branch. -/
inductive MetricData where
  | gauge (points : List NumberDataPoint)
  | sum (temporality : AggregationTemporality) (isMonotonic : Bool)
      (points : List NumberDataPoint)
  | histogram (temporality : AggregationTemporality)
      (points : List HistogramDataPoint)
  | exponentialHistogram (temporality : AggregationTemporality)
      (points : List HistogramDataPoint)
  | summary (points : List SummaryDataPoint)
  | empty
deriving DecidableEq, Repr

/-- A metric stream (`pmetric.Metric`): name plus kind-tagged data. -/
structure Metric where
  name : String
  data : MetricData
deriving DecidableEq, Repr

/-- The kind tag of a metric's data, as a string, mirroring
`pmetric.MetricType.String()`. -/
def MetricData.kind : MetricData → String
  | .gauge _ => "Gauge"
  | .sum _ _ _ => "Sum"
  | .histogram _ _ => "Histogram"
  | .exponentialHistogram _ _ => "ExponentialHistogram"
  | .summary _ => "Summary"
  | .empty => "Empty"

/-- The data points of a sum stream (empty for any other kind). -/
def MetricData.sumPoints : MetricData → List NumberDataPoint
  | .sum _ _ ps => ps
  | _ => []

/-- The data points of a histogram stream (empty for any other kind). -/
def MetricData.histogramPoints : MetricData → List HistogramDataPoint
  | .histogram _ ps => ps
  | _ => []

/-- The data points of an exponential histogram stream. -/
def MetricData.expHistogramPoints : MetricData → List HistogramDataPoint
  | .exponentialHistogram _ ps => ps
  | _ => []

/-- The data points of a summary stream (empty for any other kind). -/
def MetricData.summaryPoints : MetricData → List SummaryDataPoint
  | .summary ps => ps
  | _ => []

/-- Tracked state for a plain counter series (`timeseriesInfo.number`):
epoch start timestamp and previous observed value. -/
structure numberInfo where
  startTime : Nat
  previousValue : Int
deriving DecidableEq, Repr

/-- Tracked state for a histogram series (`timeseriesInfo.histogram`):
epoch start timestamp, previous count and previous sum. -/
structure histogramInfo where
  startTime : Nat
  previousCount : Nat
  previousSum : Int
deriving DecidableEq, Repr

/-- Tracked state for a summary series (`timeseriesInfo.summary`). -/
structure summaryInfo where
  startTime : Nat
  previousCount : Nat
  previousSum : Int
deriving DecidableEq, Repr

/-- Per-series tracked state (`timeseriesInfo`): one record holding the
number, histogram and summary shapes; each adjuster touches only the
shape matching its metric kind. -/
structure timeseriesInfo where
  number : numberInfo
  histogram : histogramInfo
  summary : summaryInfo
deriving DecidableEq, Repr

/-- The zero-valued fresh state produced by the state table on first
contact with a series identity. -/
def timeseriesInfo.zero : timeseriesInfo :=
  ⟨⟨0, 0⟩, ⟨0, 0, 0⟩, ⟨0, 0, 0⟩⟩

/-- Modelled from the spec: the `SeriesIdentity` key of the repository's
`timeseriesMap`, which is defined outside the adjuster source file — the
owning metric's name and kind together with the data point's attribute
set, compared by full equality. -/
structure seriesIdentity where
  metricName : String
  metricKind : String
  attributes : List (String × String)
deriving DecidableEq, Repr

/-- Modelled from the spec: the `timeseriesMap` (SeriesStateTable) of the
repository, defined outside the adjuster source file: an association of
series identities to tracked state; the mutex and last-touch bookkeeping
are not modelled (single-threaded embedding). -/
abbrev timeseriesMap := List (seriesIdentity × timeseriesInfo)

/-- Lookup of a series identity in the state table. -/
def tsmLookup (tsm : timeseriesMap) (id : seriesIdentity) :
    Option timeseriesInfo :=
  match tsm with
  | [] => none
  | (k, v) :: rest => if k = id then some v else tsmLookup rest id

/-- Write-back of a series state into the table (replacing any existing
entry for the identity), modelling in-place mutation through the
reference returned by `tsm.get`. -/
def tsmInsert (tsm : timeseriesMap) (id : seriesIdentity)
    (v : timeseriesInfo) : timeseriesMap :=
  match tsm with
  | [] => [(id, v)]
  | (k, w) :: rest =>
      if k = id then (id, v) :: rest else (k, w) :: tsmInsert rest id v

/-- Series identity of a sum data point with the given attributes. -/
def sumIdentity (name : String) (attrs : List (String × String)) :
    seriesIdentity :=
  ⟨name, "Sum", attrs⟩

/-- Series identity of a histogram data point. -/
def histogramIdentity (name : String) (attrs : List (String × String)) :
    seriesIdentity :=
  ⟨name, "Histogram", attrs⟩

/-- Series identity of an exponential histogram data point. -/
def expHistogramIdentity (name : String) (attrs : List (String × String)) :
    seriesIdentity :=
  ⟨name, "ExponentialHistogram", attrs⟩

/-- Series identity of a summary data point. -/
def summaryIdentity (name : String) (attrs : List (String × String)) :
    seriesIdentity :=
  ⟨name, "Summary", attrs⟩

/-- One iteration of the loop body of `adjustMetricSum`
(factory.go lines 500–527): dispatch on unseen / stale / reset /
continuation, returning the updated table and the rewritten point. -/
def adjustSumPoint (id : seriesIdentity) (tsm : timeseriesMap)
    (p : NumberDataPoint) : timeseriesMap × NumberDataPoint :=
  match tsmLookup tsm id with
  | none =>
      (tsmInsert tsm id
        { timeseriesInfo.zero with
            number := ⟨p.startTimestamp, p.doubleValue⟩ }, p)
  | some tsi =>
      if p.noRecordedValue then
        (tsm, { p with startTimestamp := tsi.number.startTime })
      else if p.doubleValue < tsi.number.previousValue then
        (tsmInsert tsm id
          { tsi with number := ⟨p.startTimestamp, p.doubleValue⟩ }, p)
      else
        (tsmInsert tsm id
          { tsi with number :=
              { tsi.number with previousValue := p.doubleValue } },
          { p with startTimestamp := tsi.number.startTime })

/-- The loop of `adjustMetricSum` over the stream's data points, threading
the state table left to right. -/
def adjustSumPoints (name : String) :
    timeseriesMap → List NumberDataPoint →
      timeseriesMap × List NumberDataPoint
  | tsm, [] => (tsm, [])
  | tsm, p :: rest =>
      let r := adjustSumPoint (sumIdentity name p.attributes) tsm p
      let rr := adjustSumPoints name r.1 rest
      (rr.1, r.2 :: rr.2)

/-- The function `adjustMetricSum` (factory.go lines 498–528). Note that,
unlike the histogram adjusters, it performs no aggregation-temporality
check and no monotonicity check: it runs on every sum stream. -/
def adjustMetricSum (tsm : timeseriesMap) (current : Metric) :
    timeseriesMap × Metric :=
  match current.data with
  | .sum temporality isMonotonic points =>
      let r := adjustSumPoints current.name tsm points
      (r.1, { current with data := .sum temporality isMonotonic r.2 })
  | _ => (tsm, current)

/-- One iteration of the loop body of `adjustMetricHistogram`
(factory.go lines 424–454): a reset is any decrease in count or in sum
relative to the tracked values. -/
def adjustHistogramPoint (id : seriesIdentity) (tsm : timeseriesMap)
    (p : HistogramDataPoint) : timeseriesMap × HistogramDataPoint :=
  match tsmLookup tsm id with
  | none =>
      (tsmInsert tsm id
        { timeseriesInfo.zero with
            histogram := ⟨p.startTimestamp, p.count, p.sum⟩ }, p)
  | some tsi =>
      if p.noRecordedValue then
        (tsm, { p with startTimestamp := tsi.histogram.startTime })
      else if p.count < tsi.histogram.previousCount ∨
          p.sum < tsi.histogram.previousSum then
        (tsmInsert tsm id
          { tsi with histogram := ⟨p.startTimestamp, p.count, p.sum⟩ }, p)
      else
        (tsmInsert tsm id
          { tsi with histogram :=
              { tsi.histogram with
                  previousCount := p.count, previousSum := p.sum } },
          { p with startTimestamp := tsi.histogram.startTime })

/-- The loop of `adjustMetricHistogram` over the stream's data points. -/
def adjustHistogramPoints (name : String) :
    timeseriesMap → List HistogramDataPoint →
      timeseriesMap × List HistogramDataPoint
  | tsm, [] => (tsm, [])
  | tsm, p :: rest =>
      let r := adjustHistogramPoint (histogramIdentity name p.attributes) tsm p
      let rr := adjustHistogramPoints name r.1 rest
      (rr.1, r.2 :: rr.2)

/-- The function `adjustMetricHistogram` (factory.go lines 416–455):
non-cumulative temporality is skipped entirely; otherwise the count/sum
reset algorithm runs on each point. -/
def adjustMetricHistogram (tsm : timeseriesMap) (current : Metric) :
    timeseriesMap × Metric :=
  match current.data with
  | .histogram temporality points =>
      if temporality ≠ .cumulative then (tsm, current)
      else
        let r := adjustHistogramPoints current.name tsm points
        (r.1, { current with data := .histogram temporality r.2 })
  | _ => (tsm, current)

/-- One iteration of the loop body of `adjustMetricExponentialHistogram`
(factory.go lines 465–495); textually the same algorithm as
`adjustHistogramPoint`, operating on the same `tsi.histogram` state. -/
def adjustExpHistogramPoint (id : seriesIdentity) (tsm : timeseriesMap)
    (p : HistogramDataPoint) : timeseriesMap × HistogramDataPoint :=
  match tsmLookup tsm id with
  | none =>
      (tsmInsert tsm id
        { timeseriesInfo.zero with
            histogram := ⟨p.startTimestamp, p.count, p.sum⟩ }, p)
  | some tsi =>
      if p.noRecordedValue then
        (tsm, { p with startTimestamp := tsi.histogram.startTime })
      else if p.count < tsi.histogram.previousCount ∨
          p.sum < tsi.histogram.previousSum then
        (tsmInsert tsm id
          { tsi with histogram := ⟨p.startTimestamp, p.count, p.sum⟩ }, p)
      else
        (tsmInsert tsm id
          { tsi with histogram :=
              { tsi.histogram with
                  previousCount := p.count, previousSum := p.sum } },
          { p with startTimestamp := tsi.histogram.startTime })

/-- The loop of `adjustMetricExponentialHistogram` over the data points. -/
def adjustExpHistogramPoints (name : String) :
    timeseriesMap → List HistogramDataPoint →
      timeseriesMap × List HistogramDataPoint
  | tsm, [] => (tsm, [])
  | tsm, p :: rest =>
      let r := adjustExpHistogramPoint (expHistogramIdentity name p.attributes)
        tsm p
      let rr := adjustExpHistogramPoints name r.1 rest
      (rr.1, r.2 :: rr.2)

/-- The function `adjustMetricExponentialHistogram`
(factory.go lines 457–496). -/
def adjustMetricExponentialHistogram (tsm : timeseriesMap)
    (current : Metric) : timeseriesMap × Metric :=
  match current.data with
  | .exponentialHistogram temporality points =>
      if temporality ≠ .cumulative then (tsm, current)
      else
        let r := adjustExpHistogramPoints current.name tsm points
        (r.1, { current with data := .exponentialHistogram temporality r.2 })
  | _ => (tsm, current)

/-- One iteration of the loop body of `adjustMetricSummary`
(factory.go lines 533–567): the reset test fires only when the tracked
and current count (or sum) are both nonzero and the current one is
strictly smaller. -/
def adjustSummaryPoint (id : seriesIdentity) (tsm : timeseriesMap)
    (p : SummaryDataPoint) : timeseriesMap × SummaryDataPoint :=
  match tsmLookup tsm id with
  | none =>
      (tsmInsert tsm id
        { timeseriesInfo.zero with
            summary := ⟨p.startTimestamp, p.count, p.sum⟩ }, p)
  | some tsi =>
      if p.noRecordedValue then
        (tsm, { p with startTimestamp := tsi.summary.startTime })
      else if (p.count ≠ 0 ∧ tsi.summary.previousCount ≠ 0 ∧
            p.count < tsi.summary.previousCount) ∨
          (p.sum ≠ 0 ∧ tsi.summary.previousSum ≠ 0 ∧
            p.sum < tsi.summary.previousSum) then
        (tsmInsert tsm id
          { tsi with summary := ⟨p.startTimestamp, p.count, p.sum⟩ }, p)
      else
        (tsmInsert tsm id
          { tsi with summary :=
              { tsi.summary with
                  previousCount := p.count, previousSum := p.sum } },
          { p with startTimestamp := tsi.summary.startTime })

/-- The loop of `adjustMetricSummary` over the stream's data points. -/
def adjustSummaryPoints (name : String) :
    timeseriesMap → List SummaryDataPoint →
      timeseriesMap × List SummaryDataPoint
  | tsm, [] => (tsm, [])
  | tsm, p :: rest =>
      let r := adjustSummaryPoint (summaryIdentity name p.attributes) tsm p
      let rr := adjustSummaryPoints name r.1 rest
      (rr.1, r.2 :: rr.2)

/-- The function `adjustMetricSummary` (factory.go lines 530–568);
summaries carry no temporality, so no skip test exists. -/
def adjustMetricSummary (tsm : timeseriesMap) (current : Metric) :
    timeseriesMap × Metric :=
  match current.data with
  | .summary points =>
      let r := adjustSummaryPoints current.name tsm points
      (r.1, { current with data := .summary r.2 })
  | _ => (tsm, current)

/-- The dispatch switch of `AdjustMetrics` (factory.go lines 386–408):
gauges need no processing; each cumulative kind goes to its adjuster;
`MetricTypeEmpty` falls through to the default branch, which logs an
informational message and leaves the metric alone. The third component
collects the log messages. -/
def adjustMetric (tsm : timeseriesMap) (metric : Metric) :
    timeseriesMap × Metric × List String :=
  match metric.data with
  | .gauge _ => (tsm, metric, [])
  | .histogram _ _ =>
      let r := adjustMetricHistogram tsm metric
      (r.1, r.2, [])
  | .summary _ =>
      let r := adjustMetricSummary tsm metric
      (r.1, r.2, [])
  | .sum _ _ _ =>
      let r := adjustMetricSum tsm metric
      (r.1, r.2, [])
  | .exponentialHistogram _ _ =>
      let r := adjustMetricExponentialHistogram tsm metric
      (r.1, r.2, [])
  | .empty =>
      (tsm, metric, ["Adjust - skipping unexpected point type=Empty"])

/-- An instrumentation-scope group (`pmetric.ScopeMetrics`). -/
structure ScopeMetrics where
  metrics : List Metric
deriving DecidableEq, Repr

/-- A resource group (`pmetric.ResourceMetrics`): resource attributes and
scope groups. -/
structure ResourceMetrics where
  resourceAttributes : List (String × String)
  scopeMetrics : List ScopeMetrics
deriving DecidableEq, Repr

/-- A metric batch (`pmetric.Metrics`). -/
structure Metrics where
  resourceMetrics : List ResourceMetrics
deriving DecidableEq, Repr

/-- Attribute lookup mirroring `Attributes().Get(key)` followed by
`.Str()`: a missing key yields the empty string (the zero `pcommon.Value`
stringifies to `""`). -/
def attrStr (attrs : List (String × String)) (key : String) : String :=
  match attrs.find? (fun kv => decide (kv.1 = key)) with
  | some kv => kv.2
  | none => ""

/-- Modelled from the spec: the `JobsMap` (ResourceTableRegistry) of the
repository, mapping the (job, instance) resource key to that resource's
state table; lazy creation, no sweeper (the garbage-collection interval
is not modelled). -/
abbrev jobsMap := List ((String × String) × timeseriesMap)

/-- Lookup of a resource key in the registry. -/
def jmLookup (jm : jobsMap) (key : String × String) :
    Option timeseriesMap :=
  match jm with
  | [] => none
  | (k, v) :: rest => if k = key then some v else jmLookup rest key

/-- Write-back of a resource's state table into the registry. -/
def jmInsert (jm : jobsMap) (key : String × String) (v : timeseriesMap) :
    jobsMap :=
  match jm with
  | [] => [(key, v)]
  | (k, w) :: rest =>
      if k = key then (key, v) :: rest else (k, w) :: jmInsert rest key v

/-- The inner loop of `AdjustMetrics` over one resource group's metrics. -/
def adjustMetricList :
    timeseriesMap → List Metric →
      timeseriesMap × List Metric × List String
  | tsm, [] => (tsm, [], [])
  | tsm, m :: rest =>
      let r := adjustMetric tsm m
      let rr := adjustMetricList r.1 rest
      (rr.1, r.2.1 :: rr.2.1, r.2.2 ++ rr.2.2)

/-- The loop of `AdjustMetrics` over one resource group's scope groups. -/
def adjustScopeList :
    timeseriesMap → List ScopeMetrics →
      timeseriesMap × List ScopeMetrics × List String
  | tsm, [] => (tsm, [], [])
  | tsm, sm :: rest =>
      let r := adjustMetricList tsm sm.metrics
      let rr := adjustScopeList r.1 rest
      (rr.1, { sm with metrics := r.2.1 } :: rr.2.1, r.2.2 ++ rr.2.2)

/-- The resource key extraction of `AdjustMetrics` (factory.go lines
375–376): the `service.name` and `service.instance.id` attributes. -/
def resourceKey (rm : ResourceMetrics) : String × String :=
  (attrStr rm.resourceAttributes "service.name",
    attrStr rm.resourceAttributes "service.instance.id")

/-- The outer loop of `AdjustMetrics` over the batch's resource groups:
fetch (or lazily create) the resource's state table, adjust the scope
groups under it, write the table back. -/
def adjustResourceList :
    jobsMap → List ResourceMetrics →
      jobsMap × List ResourceMetrics × List String
  | jm, [] => (jm, [], [])
  | jm, rm :: rest =>
      let tsm := (jmLookup jm (resourceKey rm)).getD []
      let r := adjustScopeList tsm rm.scopeMetrics
      let jm2 := jmInsert jm (resourceKey rm) r.1
      let rr := adjustResourceList jm2 rest
      (rr.1, { rm with scopeMetrics := r.2.1 } :: rr.2.1, r.2.2 ++ rr.2.2)

/-- The full result of one `AdjustMetrics` call: the updated registry,
the returned batch, the informational log messages, and the returned
error value. -/
structure AdjustResult where
  jobs : jobsMap
  output : Metrics
  logs : List String
  err : Option String
deriving DecidableEq, Repr

/-- The function `AdjustMetrics` (factory.go lines 371–414): walk every
resource group, scope group and metric, dispatch by kind, and return the
batch together with a nil error (`return metrics, nil`). -/
def AdjustMetrics (jm : jobsMap) (metrics : Metrics) : AdjustResult :=
  let r := adjustResourceList jm metrics.resourceMetrics
  ⟨r.1, ⟨r.2.1⟩, r.2.2, none⟩

/-- Erase the start timestamp of a number data point (used to state that
the adjuster changes nothing but start timestamps). -/
def NumberDataPoint.clearStart (p : NumberDataPoint) : NumberDataPoint :=
  { p with startTimestamp := 0 }

/-- Erase the start timestamp of a histogram data point. -/
def HistogramDataPoint.clearStart (p : HistogramDataPoint) :
    HistogramDataPoint :=
  { p with startTimestamp := 0 }

/-- Erase the start timestamp of a summary data point. -/
def SummaryDataPoint.clearStart (p : SummaryDataPoint) :
    SummaryDataPoint :=
  { p with startTimestamp := 0 }

/-- Erase every data point's start timestamp in a metric's data. -/
def MetricData.clearStarts : MetricData → MetricData
  | .gauge ps => .gauge (ps.map NumberDataPoint.clearStart)
  | .sum t m ps => .sum t m (ps.map NumberDataPoint.clearStart)
  | .histogram t ps => .histogram t (ps.map HistogramDataPoint.clearStart)
  | .exponentialHistogram t ps =>
      .exponentialHistogram t (ps.map HistogramDataPoint.clearStart)
  | .summary ps => .summary (ps.map SummaryDataPoint.clearStart)
  | .empty => .empty

/-- Erase every data point's start timestamp in a metric. -/
def Metric.clearStarts (m : Metric) : Metric :=
  { m with data := m.data.clearStarts }

/-- Erase every start timestamp in a scope group. -/
def ScopeMetrics.clearStarts (sm : ScopeMetrics) : ScopeMetrics :=
  { sm with metrics := sm.metrics.map Metric.clearStarts }

/-- Erase every start timestamp in a resource group. -/
def ResourceMetrics.clearStarts (rm : ResourceMetrics) : ResourceMetrics :=
  { rm with scopeMetrics := rm.scopeMetrics.map ScopeMetrics.clearStarts }

/-- Erase every start timestamp in a batch: two batches are equal under
`clearStarts` exactly when they agree in everything (group structure,
counts, attributes, values, flags, end timestamps) except possibly the
data points' start timestamps. -/
def Metrics.clearStarts (m : Metrics) : Metrics :=
  ⟨m.resourceMetrics.map ResourceMetrics.clearStarts⟩

/-- A metric stream of gauge kind. -/
def Metric.isGauge (m : Metric) : Prop :=
  ∃ ps, m.data = .gauge ps

/-- Positionally, every gauge metric of batch `a` is carried unchanged to
batch `b`. -/
def gaugesUnchanged (a b : Metrics) : Prop :=
  List.Forall₂ (fun rm rm' =>
      List.Forall₂ (fun sm sm' =>
          List.Forall₂ (fun mx mx' => mx.isGauge → mx' = mx)
            sm.metrics sm'.metrics)
        rm.scopeMetrics rm'.scopeMetrics)
    a.resourceMetrics b.resourceMetrics

/-- All points in the list carry the given attribute set (so they all
belong to the same series identity under one metric). -/
def sameSeries (attrs : List (String × String)) :
    List NumberDataPoint → Bool
  | [] => true
  | p :: rest => decide (p.attributes = attrs) && sameSeries attrs rest

/-- No point in the list is flagged as a staleness marker. -/
def noStale : List NumberDataPoint → Bool
  | [] => true
  | p :: rest => !p.noRecordedValue && noStale rest

/-- The values of the points are non-decreasing, starting from `v`. -/
def nondecreasingFrom (v : Int) : List NumberDataPoint → Bool
  | [] => true
  | p :: rest =>
      decide (v ≤ p.doubleValue) && nondecreasingFrom p.doubleValue rest

/-! Helper lemmas. -/

theorem tsmLookup_tsmInsert_self (tsm : timeseriesMap)
    (id : seriesIdentity) (v : timeseriesInfo) :
    tsmLookup (tsmInsert tsm id v) id = some v := by
  induction tsm with
  | nil => simp [tsmInsert, tsmLookup]
  | cons kv rest ih =>
      obtain ⟨k, w⟩ := kv
      by_cases h : k = id
      · simp [tsmInsert, tsmLookup, h]
      · simp [tsmInsert, tsmLookup, h, ih]

theorem adjustSumPoints_tracking (name : String)
    (attrs : List (String × String)) (T : Nat) :
    ∀ (ps : List NumberDataPoint) (tsm : timeseriesMap)
      (tsi : timeseriesInfo),
      tsmLookup tsm (sumIdentity name attrs) = some tsi →
      tsi.number.startTime = T →
      sameSeries attrs ps = true →
      noStale ps = true →
      nondecreasingFrom tsi.number.previousValue ps = true →
      (adjustSumPoints name tsm ps).2 =
        ps.map (fun q => { q with startTimestamp := T }) := by
  intro ps
  induction ps with
  | nil =>
      intro tsm tsi _ _ _ _ _
      simp [adjustSumPoints]
  | cons p rest ih =>
      intro tsm tsi h hT hsame hstale hmono
      simp only [sameSeries, Bool.and_eq_true, decide_eq_true_eq] at hsame
      simp only [noStale, Bool.and_eq_true, Bool.not_eq_true'] at hstale
      simp only [nondecreasingFrom, Bool.and_eq_true, decide_eq_true_eq]
        at hmono
      obtain ⟨hpattr, hsame2⟩ := hsame
      obtain ⟨hpflag, hstale2⟩ := hstale
      obtain ⟨hple, hmono2⟩ := hmono
      subst hpattr
      have hstep : adjustSumPoint (sumIdentity name p.attributes) tsm p =
          (tsmInsert tsm (sumIdentity name p.attributes)
            { tsi with number :=
                { tsi.number with previousValue := p.doubleValue } },
            { p with startTimestamp := T }) := by
        simp [adjustSumPoint, h, hpflag, not_lt.mpr hple, hT]
      simp only [adjustSumPoints, hstep, List.map_cons]
      rw [ih (tsmInsert tsm (sumIdentity name p.attributes)
          { tsi with number :=
              { tsi.number with previousValue := p.doubleValue } })
          { tsi with number :=
              { tsi.number with previousValue := p.doubleValue } }
          (tsmLookup_tsmInsert_self _ _ _) hT hsame2 hstale2 hmono2]

/-- C1: for a cumulative sum series under one identity that starts from an
unseen state and delivers a non-decreasing sequence of non-stale points,
`adjustMetricSum` leaves the first point untouched, records its start
timestamp as the epoch start and its value as the previous value, and
rewrites every subsequent point's start timestamp to the first point's
original start timestamp. -/
theorem sum_unseen_first_epoch (name : String) (tsm : timeseriesMap)
    (p : NumberDataPoint) (rest : List NumberDataPoint)
    (h0 : tsmLookup tsm (sumIdentity name p.attributes) = none)
    (_hpflag : p.noRecordedValue = false)
    (hsame : sameSeries p.attributes rest = true)
    (hstale : noStale rest = true)
    (hmono : nondecreasingFrom p.doubleValue rest = true) :
    (adjustMetricSum tsm ⟨name, .sum .cumulative true (p :: rest)⟩).2 =
      ⟨name, .sum .cumulative true
        (p :: rest.map
          (fun q => { q with startTimestamp := p.startTimestamp }))⟩ ∧
    (tsmLookup (adjustSumPoint (sumIdentity name p.attributes) tsm p).1
        (sumIdentity name p.attributes)).map
        (fun t => (t.number.startTime, t.number.previousValue)) =
      some (p.startTimestamp, p.doubleValue) := by
  have hstep : adjustSumPoint (sumIdentity name p.attributes) tsm p =
      (tsmInsert tsm (sumIdentity name p.attributes)
        { timeseriesInfo.zero with
            number := ⟨p.startTimestamp, p.doubleValue⟩ }, p) := by
    simp [adjustSumPoint, h0]
  constructor
  · simp only [adjustMetricSum, adjustSumPoints, hstep]
    rw [adjustSumPoints_tracking name p.attributes p.startTimestamp rest
        (tsmInsert tsm (sumIdentity name p.attributes)
          { timeseriesInfo.zero with
              number := ⟨p.startTimestamp, p.doubleValue⟩ })
        { timeseriesInfo.zero with
            number := ⟨p.startTimestamp, p.doubleValue⟩ }
        (tsmLookup_tsmInsert_self _ _ _) rfl hsame hstale hmono]
  · rw [hstep]
    simp [tsmLookup_tsmInsert_self]

/-- Witness for C1 at a concrete input: the two-point series (value 10 at
start 1, then value 15 at start 2) under an empty state table. -/
theorem sum_unseen_first_epoch_witness :
    tsmLookup [] (sumIdentity "m" [("k", "v")]) = none ∧
    (⟨[("k", "v")], 1, 1, 10, false⟩ :
      NumberDataPoint).noRecordedValue = false ∧
    sameSeries [("k", "v")] [⟨[("k", "v")], 2, 2, 15, false⟩] = true ∧
    noStale [⟨[("k", "v")], 2, 2, 15, false⟩] = true ∧
    nondecreasingFrom 10 [⟨[("k", "v")], 2, 2, 15, false⟩] = true ∧
    ((adjustMetricSum [] ⟨"m", .sum .cumulative true
        [⟨[("k", "v")], 1, 1, 10, false⟩,
          ⟨[("k", "v")], 2, 2, 15, false⟩]⟩).2 =
      ⟨"m", .sum .cumulative true
        [⟨[("k", "v")], 1, 1, 10, false⟩,
          ⟨[("k", "v")], 1, 2, 15, false⟩]⟩ ∧
    (tsmLookup (adjustSumPoint (sumIdentity "m" [("k", "v")]) []
        ⟨[("k", "v")], 1, 1, 10, false⟩).1
        (sumIdentity "m" [("k", "v")])).map
        (fun t => (t.number.startTime, t.number.previousValue)) =
      some (1, 10)) :=
  ⟨by decide, by decide, by decide, by decide, by decide,
    sum_unseen_first_epoch "m" [] ⟨[("k", "v")], 1, 1, 10, false⟩
      [⟨[("k", "v")], 2, 2, 15, false⟩]
      (by decide) (by decide) (by decide) (by decide) (by decide)⟩

/-- C2: with tracked state present, a point whose value drops strictly
below the tracked previous value keeps its own start timestamp,
re-initializes the tracked epoch start to that timestamp and the tracked
previous value to its value, and every subsequent non-reset (non-stale,
non-decreasing) point is rewritten to that timestamp. -/
theorem sum_reset_opens_epoch (name : String) (tsm : timeseriesMap)
    (tsi : timeseriesInfo) (p : NumberDataPoint)
    (rest : List NumberDataPoint)
    (h : tsmLookup tsm (sumIdentity name p.attributes) = some tsi)
    (hpflag : p.noRecordedValue = false)
    (hreset : p.doubleValue < tsi.number.previousValue)
    (hsame : sameSeries p.attributes rest = true)
    (hstale : noStale rest = true)
    (hmono : nondecreasingFrom p.doubleValue rest = true) :
    (adjustMetricSum tsm ⟨name, .sum .cumulative true (p :: rest)⟩).2 =
      ⟨name, .sum .cumulative true
        (p :: rest.map
          (fun q => { q with startTimestamp := p.startTimestamp }))⟩ ∧
    (tsmLookup (adjustSumPoint (sumIdentity name p.attributes) tsm p).1
        (sumIdentity name p.attributes)).map
        (fun t => (t.number.startTime, t.number.previousValue)) =
      some (p.startTimestamp, p.doubleValue) := by
  have hstep : adjustSumPoint (sumIdentity name p.attributes) tsm p =
      (tsmInsert tsm (sumIdentity name p.attributes)
        { tsi with number := ⟨p.startTimestamp, p.doubleValue⟩ }, p) := by
    simp [adjustSumPoint, h, hpflag, hreset]
  constructor
  · simp only [adjustMetricSum, adjustSumPoints, hstep]
    rw [adjustSumPoints_tracking name p.attributes p.startTimestamp rest
        (tsmInsert tsm (sumIdentity name p.attributes)
          { tsi with number := ⟨p.startTimestamp, p.doubleValue⟩ })
        { tsi with number := ⟨p.startTimestamp, p.doubleValue⟩ }
        (tsmLookup_tsmInsert_self _ _ _) rfl hsame hstale hmono]
  · rw [hstep]
    simp [tsmLookup_tsmInsert_self]

/-- Witness for C2 at a concrete input: tracked state (epoch 5, previous
value 100); the point (value 3 at start 7) resets, the follower (value 4
at start 8) inherits start 7. -/
theorem sum_reset_opens_epoch_witness :
    tsmLookup [(⟨"m", "Sum", []⟩, ⟨⟨5, 100⟩, ⟨0, 0, 0⟩, ⟨0, 0, 0⟩⟩)]
        (sumIdentity "m" []) =
      some ⟨⟨5, 100⟩, ⟨0, 0, 0⟩, ⟨0, 0, 0⟩⟩ ∧
    (⟨[], 7, 7, 3, false⟩ : NumberDataPoint).noRecordedValue = false ∧
    ((3 : Int) < 100) ∧
    sameSeries [] [⟨[], 8, 8, 4, false⟩] = true ∧
    noStale [⟨[], 8, 8, 4, false⟩] = true ∧
    nondecreasingFrom 3 [⟨[], 8, 8, 4, false⟩] = true ∧
    ((adjustMetricSum [(⟨"m", "Sum", []⟩, ⟨⟨5, 100⟩, ⟨0, 0, 0⟩, ⟨0, 0, 0⟩⟩)]
        ⟨"m", .sum .cumulative true
          [⟨[], 7, 7, 3, false⟩, ⟨[], 8, 8, 4, false⟩]⟩).2 =
      ⟨"m", .sum .cumulative true
        [⟨[], 7, 7, 3, false⟩, ⟨[], 7, 8, 4, false⟩]⟩ ∧
    (tsmLookup (adjustSumPoint (sumIdentity "m" [])
        [(⟨"m", "Sum", []⟩, ⟨⟨5, 100⟩, ⟨0, 0, 0⟩, ⟨0, 0, 0⟩⟩)]
        ⟨[], 7, 7, 3, false⟩).1 (sumIdentity "m" [])).map
        (fun t => (t.number.startTime, t.number.previousValue)) =
      some (7, 3)) :=
  ⟨by decide, by decide, by decide, by decide, by decide, by decide,
    sum_reset_opens_epoch "m"
      [(⟨"m", "Sum", []⟩, ⟨⟨5, 100⟩, ⟨0, 0, 0⟩, ⟨0, 0, 0⟩⟩)]
      ⟨⟨5, 100⟩, ⟨0, 0, 0⟩, ⟨0, 0, 0⟩⟩ ⟨[], 7, 7, 3, false⟩
      [⟨[], 8, 8, 4, false⟩]
      (by decide) (by decide) (by decide) (by decide) (by decide)
      (by decide)⟩

/-- C5: with tracked state present, a staleness-flagged point leaves the
state table untouched (previous value, count and sum are all preserved)
and has its start timestamp rewritten to the tracked epoch start, for
sum, histogram, exponential-histogram and summary points alike. -/
theorem staleness_preserves_state (id : seriesIdentity)
    (tsm : timeseriesMap) (tsi : timeseriesInfo)
    (h : tsmLookup tsm id = some tsi) :
    (∀ p : NumberDataPoint, p.noRecordedValue = true →
      adjustSumPoint id tsm p =
        (tsm, { p with startTimestamp := tsi.number.startTime })) ∧
    (∀ p : HistogramDataPoint, p.noRecordedValue = true →
      adjustHistogramPoint id tsm p =
        (tsm, { p with startTimestamp := tsi.histogram.startTime }) ∧
      adjustExpHistogramPoint id tsm p =
        (tsm, { p with startTimestamp := tsi.histogram.startTime })) ∧
    (∀ p : SummaryDataPoint, p.noRecordedValue = true →
      adjustSummaryPoint id tsm p =
        (tsm, { p with startTimestamp := tsi.summary.startTime })) := by
  refine ⟨?_, ?_, ?_⟩ <;> intro p hp
  · simp [adjustSumPoint, h, hp]
  · exact ⟨by simp [adjustHistogramPoint, h, hp],
      by simp [adjustExpHistogramPoint, h, hp]⟩
  · simp [adjustSummaryPoint, h, hp]

/-- Witness for C5: tracked state with epoch start 5 for the counter; a
stale marker at start 9 comes back with start 5 and the table intact. -/
theorem staleness_preserves_state_witness :
    tsmLookup [(⟨"m", "Sum", []⟩, ⟨⟨5, 10⟩, ⟨6, 2, 9⟩, ⟨7, 3, 8⟩⟩)]
        ⟨"m", "Sum", []⟩ = some ⟨⟨5, 10⟩, ⟨6, 2, 9⟩, ⟨7, 3, 8⟩⟩ ∧
    (⟨[], 9, 9, 0, true⟩ : NumberDataPoint).noRecordedValue = true ∧
    adjustSumPoint ⟨"m", "Sum", []⟩
        [(⟨"m", "Sum", []⟩, ⟨⟨5, 10⟩, ⟨6, 2, 9⟩, ⟨7, 3, 8⟩⟩)]
        ⟨[], 9, 9, 0, true⟩ =
      ([(⟨"m", "Sum", []⟩, ⟨⟨5, 10⟩, ⟨6, 2, 9⟩, ⟨7, 3, 8⟩⟩)],
        ⟨[], 5, 9, 0, true⟩) :=
  ⟨by decide, by decide,
    (staleness_preserves_state ⟨"m", "Sum", []⟩
      [(⟨"m", "Sum", []⟩, ⟨⟨5, 10⟩, ⟨6, 2, 9⟩, ⟨7, 3, 8⟩⟩)]
      ⟨⟨5, 10⟩, ⟨6, 2, 9⟩, ⟨7, 3, 8⟩⟩ (by decide)).1
      ⟨[], 9, 9, 0, true⟩ rfl⟩

/-- C6: with tracked state present and no staleness flag, a histogram
reset is detected exactly when the count or the sum strictly decreases;
on reset the point is untouched and the state re-initialized from it, on
continuation both tracked count and sum are updated and the point's
start timestamp is rewritten to the tracked epoch start; non-cumulative
histogram streams are skipped entirely. -/
theorem histogram_reset_detection (id : seriesIdentity)
    (tsm : timeseriesMap) (tsi : timeseriesInfo)
    (h : tsmLookup tsm id = some tsi)
    (p : HistogramDataPoint) (hp : p.noRecordedValue = false) :
    (p.count < tsi.histogram.previousCount ∨
        p.sum < tsi.histogram.previousSum →
      adjustHistogramPoint id tsm p =
        (tsmInsert tsm id
          { tsi with histogram := ⟨p.startTimestamp, p.count, p.sum⟩ },
          p)) ∧
    (¬(p.count < tsi.histogram.previousCount ∨
        p.sum < tsi.histogram.previousSum) →
      adjustHistogramPoint id tsm p =
        (tsmInsert tsm id
          { tsi with histogram :=
              { tsi.histogram with
                  previousCount := p.count, previousSum := p.sum } },
          { p with startTimestamp := tsi.histogram.startTime })) ∧
    (∀ (name : String) (t : AggregationTemporality)
        (ps : List HistogramDataPoint), t ≠ .cumulative →
      adjustMetricHistogram tsm ⟨name, .histogram t ps⟩ =
        (tsm, ⟨name, .histogram t ps⟩)) := by
  refine ⟨?_, ?_, ?_⟩
  · intro hr
    simp [adjustHistogramPoint, h, hp, hr]
  · intro hr
    simp [adjustHistogramPoint, h, hp, hr]
  · intro name t ps ht
    simp [adjustMetricHistogram, ht]

/-- Witness for C6: tracked state (epoch 5, count 10, sum 20); a point
with count 4 (a decrease) resets and keeps its own start timestamp 9. -/
theorem histogram_reset_detection_witness :
    tsmLookup [(⟨"h", "Histogram", []⟩, ⟨⟨0, 0⟩, ⟨5, 10, 20⟩, ⟨0, 0, 0⟩⟩)]
        ⟨"h", "Histogram", []⟩ =
      some ⟨⟨0, 0⟩, ⟨5, 10, 20⟩, ⟨0, 0, 0⟩⟩ ∧
    (⟨[], 9, 9, 4, 25, false⟩ : HistogramDataPoint).noRecordedValue =
      false ∧
    ((4 : Nat) < 10 ∨ (25 : Int) < 20) ∧
    adjustHistogramPoint ⟨"h", "Histogram", []⟩
        [(⟨"h", "Histogram", []⟩, ⟨⟨0, 0⟩, ⟨5, 10, 20⟩, ⟨0, 0, 0⟩⟩)]
        ⟨[], 9, 9, 4, 25, false⟩ =
      (tsmInsert [(⟨"h", "Histogram", []⟩, ⟨⟨0, 0⟩, ⟨5, 10, 20⟩, ⟨0, 0, 0⟩⟩)]
        ⟨"h", "Histogram", []⟩ ⟨⟨0, 0⟩, ⟨9, 4, 25⟩, ⟨0, 0, 0⟩⟩,
        ⟨[], 9, 9, 4, 25, false⟩) :=
  ⟨by decide, by decide, by decide,
    (histogram_reset_detection ⟨"h", "Histogram", []⟩
      [(⟨"h", "Histogram", []⟩, ⟨⟨0, 0⟩, ⟨5, 10, 20⟩, ⟨0, 0, 0⟩⟩)]
      ⟨⟨0, 0⟩, ⟨5, 10, 20⟩, ⟨0, 0, 0⟩⟩ (by decide)
      ⟨[], 9, 9, 4, 25, false⟩ rfl).1 (by decide)⟩

/-- C7: with tracked state present and no staleness flag, a summary reset
fires only under the zero-guarded test — both the tracked and the
current count (or sum) nonzero and the current one strictly smaller; in
particular a (count 0, sum 0) on the current side, or on the tracked
side, never triggers a reset by itself. -/
theorem summary_zero_guard (id : seriesIdentity) (tsm : timeseriesMap)
    (tsi : timeseriesInfo) (h : tsmLookup tsm id = some tsi)
    (p : SummaryDataPoint) (hp : p.noRecordedValue = false) :
    ((p.count ≠ 0 ∧ tsi.summary.previousCount ≠ 0 ∧
        p.count < tsi.summary.previousCount) ∨
      (p.sum ≠ 0 ∧ tsi.summary.previousSum ≠ 0 ∧
        p.sum < tsi.summary.previousSum) →
      adjustSummaryPoint id tsm p =
        (tsmInsert tsm id
          { tsi with summary := ⟨p.startTimestamp, p.count, p.sum⟩ },
          p)) ∧
    (¬((p.count ≠ 0 ∧ tsi.summary.previousCount ≠ 0 ∧
        p.count < tsi.summary.previousCount) ∨
      (p.sum ≠ 0 ∧ tsi.summary.previousSum ≠ 0 ∧
        p.sum < tsi.summary.previousSum)) →
      adjustSummaryPoint id tsm p =
        (tsmInsert tsm id
          { tsi with summary :=
              { tsi.summary with
                  previousCount := p.count, previousSum := p.sum } },
          { p with startTimestamp := tsi.summary.startTime })) ∧
    (p.count = 0 → p.sum = 0 →
      adjustSummaryPoint id tsm p =
        (tsmInsert tsm id
          { tsi with summary :=
              { tsi.summary with
                  previousCount := p.count, previousSum := p.sum } },
          { p with startTimestamp := tsi.summary.startTime })) ∧
    (tsi.summary.previousCount = 0 → tsi.summary.previousSum = 0 →
      adjustSummaryPoint id tsm p =
        (tsmInsert tsm id
          { tsi with summary :=
              { tsi.summary with
                  previousCount := p.count, previousSum := p.sum } },
          { p with startTimestamp := tsi.summary.startTime })) := by
  refine ⟨?_, ?_, ?_, ?_⟩
  · intro hr
    simp [adjustSummaryPoint, h, hp, hr]
  · intro hr
    simp only [adjustSummaryPoint, h, hp]
    simp [hr]
  · intro hc hs
    simp [adjustSummaryPoint, h, hp, hc, hs]
  · intro hc hs
    simp [adjustSummaryPoint, h, hp, hc, hs]

/-- Witness for C7: tracked state (count 10, sum 20); the current point
reports count 0 and sum 0 — although 0 < 10 and 0 < 20, no reset fires
and the point is treated as a continuation. -/
theorem summary_zero_guard_witness :
    tsmLookup [(⟨"s", "Summary", []⟩, ⟨⟨0, 0⟩, ⟨0, 0, 0⟩, ⟨5, 10, 20⟩⟩)]
        ⟨"s", "Summary", []⟩ =
      some ⟨⟨0, 0⟩, ⟨0, 0, 0⟩, ⟨5, 10, 20⟩⟩ ∧
    (⟨[], 9, 9, 0, 0, false⟩ : SummaryDataPoint).noRecordedValue = false ∧
    adjustSummaryPoint ⟨"s", "Summary", []⟩
        [(⟨"s", "Summary", []⟩, ⟨⟨0, 0⟩, ⟨0, 0, 0⟩, ⟨5, 10, 20⟩⟩)]
        ⟨[], 9, 9, 0, 0, false⟩ =
      (tsmInsert [(⟨"s", "Summary", []⟩, ⟨⟨0, 0⟩, ⟨0, 0, 0⟩, ⟨5, 10, 20⟩⟩)]
        ⟨"s", "Summary", []⟩ ⟨⟨0, 0⟩, ⟨0, 0, 0⟩, ⟨5, 0, 0⟩⟩,
        ⟨[], 5, 9, 0, 0, false⟩) :=
  ⟨by decide, by decide,
    (summary_zero_guard ⟨"s", "Summary", []⟩
      [(⟨"s", "Summary", []⟩, ⟨⟨0, 0⟩, ⟨0, 0, 0⟩, ⟨5, 10, 20⟩⟩)]
      ⟨⟨0, 0⟩, ⟨0, 0, 0⟩, ⟨5, 10, 20⟩⟩ (by decide)
      ⟨[], 9, 9, 0, 0, false⟩ rfl).2.2.1 rfl rfl⟩

/-- C9: the histogram and the exponential-histogram per-point adjustment
bodies implement the identical count/sum reset algorithm: on equal
identity, equal prior state table and equal data point they return the
same updated table and the same rewritten point. -/
theorem histogram_exp_histogram_equivalent (id : seriesIdentity)
    (tsm : timeseriesMap) (p : HistogramDataPoint) :
    adjustHistogramPoint id tsm p = adjustExpHistogramPoint id tsm p :=
  rfl

/-- C10: when a series has no tracked state, the unseen-state branch runs
before the staleness check, so even a staleness-flagged first point
initializes the state (epoch start = its own start timestamp, previous
value / count / sum = its payload) and is left untouched. -/
theorem stale_first_point_initializes (id : seriesIdentity)
    (tsm : timeseriesMap) (h : tsmLookup tsm id = none) :
    (∀ p : NumberDataPoint, p.noRecordedValue = true →
      adjustSumPoint id tsm p =
        (tsmInsert tsm id
          { timeseriesInfo.zero with
              number := ⟨p.startTimestamp, p.doubleValue⟩ }, p)) ∧
    (∀ p : SummaryDataPoint, p.noRecordedValue = true →
      adjustSummaryPoint id tsm p =
        (tsmInsert tsm id
          { timeseriesInfo.zero with
              summary := ⟨p.startTimestamp, p.count, p.sum⟩ }, p)) := by
  constructor <;> intro p _
  · simp [adjustSumPoint, h]
  · simp [adjustSummaryPoint, h]

/-- Witness for C10: a zero-payload staleness marker at start 9 arriving
for an unseen series initializes state (epoch 9, previous value 0) and
keeps its own start timestamp. -/
theorem stale_first_point_initializes_witness :
    tsmLookup [] (⟨"m", "Sum", []⟩ : seriesIdentity) = none ∧
    (⟨[], 9, 9, 0, true⟩ : NumberDataPoint).noRecordedValue = true ∧
    adjustSumPoint ⟨"m", "Sum", []⟩ [] ⟨[], 9, 9, 0, true⟩ =
      (tsmInsert [] ⟨"m", "Sum", []⟩ ⟨⟨9, 0⟩, ⟨0, 0, 0⟩, ⟨0, 0, 0⟩⟩,
        ⟨[], 9, 9, 0, true⟩) :=
  ⟨rfl, rfl,
    (stale_first_point_initializes ⟨"m", "Sum", []⟩ [] rfl).1
      ⟨[], 9, 9, 0, true⟩ rfl⟩

/-- C8: `AdjustMetrics` is total and always returns a nil error, for
every registry and every batch; a metric of the unrecognized (empty)
kind is logged as informational and returned unmodified. -/
theorem adjust_metrics_total (jm : jobsMap) (m : Metrics) :
    (AdjustMetrics jm m).err = none ∧
    (∀ (tsm : timeseriesMap) (name : String),
      adjustMetric tsm ⟨name, .empty⟩ =
        (tsm, ⟨name, .empty⟩,
          ["Adjust - skipping unexpected point type=Empty"])) :=
  ⟨rfl, fun _ _ => rfl⟩

/-- Counterexample to C4 as stated: a sum stream tagged with delta
temporality and non-monotonic still gets adjusted — the second point's
start timestamp is rewritten from 2 to 1 and per-series state is
recorded for it. -/
theorem sum_delta_nonmonotonic_adjusted :
    (adjustMetricSum [] ⟨"d", .sum .delta false
        [⟨[], 1, 1, 5, false⟩, ⟨[], 2, 2, 7, false⟩]⟩).2 =
      ⟨"d", .sum .delta false
        [⟨[], 1, 1, 5, false⟩, ⟨[], 1, 2, 7, false⟩]⟩ ∧
    tsmLookup (adjustMetricSum [] ⟨"d", .sum .delta false
        [⟨[], 1, 1, 5, false⟩, ⟨[], 2, 2, 7, false⟩]⟩).1
        (sumIdentity "d" []) =
      some ⟨⟨1, 7⟩, ⟨0, 0, 0⟩, ⟨0, 0, 0⟩⟩ := by
  decide

/-- C4 amended: `adjustMetricSum` runs the reset algorithm on every sum
stream regardless of its temporality and monotonicity tags (only the
histogram and exponential-histogram adjusters skip non-cumulative
streams): its resulting state table and rewritten points do not depend
on those tags. -/
theorem sum_adjusted_regardless_of_temporality (name : String)
    (tsm : timeseriesMap) (ps : List NumberDataPoint)
    (t1 t2 : AggregationTemporality) (m1 m2 : Bool) :
    (adjustMetricSum tsm ⟨name, .sum t1 m1 ps⟩).1 =
      (adjustMetricSum tsm ⟨name, .sum t2 m2 ps⟩).1 ∧
    ((adjustMetricSum tsm ⟨name, .sum t1 m1 ps⟩).2).data.sumPoints =
      ((adjustMetricSum tsm ⟨name, .sum t2 m2 ps⟩).2).data.sumPoints ∧
    ((adjustMetricSum tsm ⟨name, .sum t1 m1 ps⟩).2).data.sumPoints =
      (adjustSumPoints name tsm ps).2 :=
  ⟨rfl, rfl, rfl⟩

theorem adjustSumPoint_clearStart (id : seriesIdentity)
    (tsm : timeseriesMap) (p : NumberDataPoint) :
    ((adjustSumPoint id tsm p).2).clearStart = p.clearStart := by
  rcases h : tsmLookup tsm id with _ | tsi
  · simp [adjustSumPoint, h]
  · simp only [adjustSumPoint, h]
    split
    · simp [NumberDataPoint.clearStart]
    · split <;> simp [NumberDataPoint.clearStart]

theorem adjustHistogramPoint_clearStart (id : seriesIdentity)
    (tsm : timeseriesMap) (p : HistogramDataPoint) :
    ((adjustHistogramPoint id tsm p).2).clearStart = p.clearStart := by
  rcases h : tsmLookup tsm id with _ | tsi
  · simp [adjustHistogramPoint, h]
  · simp only [adjustHistogramPoint, h]
    split
    · simp [HistogramDataPoint.clearStart]
    · split <;> simp [HistogramDataPoint.clearStart]

theorem adjustExpHistogramPoint_clearStart (id : seriesIdentity)
    (tsm : timeseriesMap) (p : HistogramDataPoint) :
    ((adjustExpHistogramPoint id tsm p).2).clearStart = p.clearStart := by
  rw [← histogram_exp_histogram_equivalent]
  exact adjustHistogramPoint_clearStart id tsm p

theorem adjustSummaryPoint_clearStart (id : seriesIdentity)
    (tsm : timeseriesMap) (p : SummaryDataPoint) :
    ((adjustSummaryPoint id tsm p).2).clearStart = p.clearStart := by
  rcases h : tsmLookup tsm id with _ | tsi
  · simp [adjustSummaryPoint, h]
  · simp only [adjustSummaryPoint, h]
    split
    · simp [SummaryDataPoint.clearStart]
    · split <;> simp [SummaryDataPoint.clearStart]

theorem adjustSumPoints_clearStart (name : String) :
    ∀ (ps : List NumberDataPoint) (tsm : timeseriesMap),
      ((adjustSumPoints name tsm ps).2).map NumberDataPoint.clearStart =
        ps.map NumberDataPoint.clearStart := by
  intro ps
  induction ps with
  | nil => intro tsm; simp [adjustSumPoints]
  | cons p rest ih =>
      intro tsm
      simp [adjustSumPoints, adjustSumPoint_clearStart, ih]

theorem adjustHistogramPoints_clearStart (name : String) :
    ∀ (ps : List HistogramDataPoint) (tsm : timeseriesMap),
      ((adjustHistogramPoints name tsm ps).2).map
          HistogramDataPoint.clearStart =
        ps.map HistogramDataPoint.clearStart := by
  intro ps
  induction ps with
  | nil => intro tsm; simp [adjustHistogramPoints]
  | cons p rest ih =>
      intro tsm
      simp [adjustHistogramPoints, adjustHistogramPoint_clearStart, ih]

theorem adjustExpHistogramPoints_clearStart (name : String) :
    ∀ (ps : List HistogramDataPoint) (tsm : timeseriesMap),
      ((adjustExpHistogramPoints name tsm ps).2).map
          HistogramDataPoint.clearStart =
        ps.map HistogramDataPoint.clearStart := by
  intro ps
  induction ps with
  | nil => intro tsm; simp [adjustExpHistogramPoints]
  | cons p rest ih =>
      intro tsm
      simp [adjustExpHistogramPoints, adjustExpHistogramPoint_clearStart, ih]

theorem adjustSummaryPoints_clearStart (name : String) :
    ∀ (ps : List SummaryDataPoint) (tsm : timeseriesMap),
      ((adjustSummaryPoints name tsm ps).2).map
          SummaryDataPoint.clearStart =
        ps.map SummaryDataPoint.clearStart := by
  intro ps
  induction ps with
  | nil => intro tsm; simp [adjustSummaryPoints]
  | cons p rest ih =>
      intro tsm
      simp [adjustSummaryPoints, adjustSummaryPoint_clearStart, ih]

theorem adjustMetric_clearStarts (tsm : timeseriesMap) (m : Metric) :
    ((adjustMetric tsm m).2.1).clearStarts = m.clearStarts := by
  obtain ⟨name, data⟩ := m
  cases data with
  | gauge ps => rfl
  | sum t mono ps =>
      simp [adjustMetric, adjustMetricSum, Metric.clearStarts,
        MetricData.clearStarts, adjustSumPoints_clearStart]
  | histogram t ps =>
      simp only [adjustMetric, adjustMetricHistogram]
      split
      · rfl
      · simp [Metric.clearStarts, MetricData.clearStarts,
          adjustHistogramPoints_clearStart]
  | exponentialHistogram t ps =>
      simp only [adjustMetric, adjustMetricExponentialHistogram]
      split
      · rfl
      · simp [Metric.clearStarts, MetricData.clearStarts,
          adjustExpHistogramPoints_clearStart]
  | summary ps =>
      simp [adjustMetric, adjustMetricSummary, Metric.clearStarts,
        MetricData.clearStarts, adjustSummaryPoints_clearStart]
  | empty => rfl

theorem adjustMetric_gauge_eq (tsm : timeseriesMap) (m : Metric)
    (hg : m.isGauge) : (adjustMetric tsm m).2.1 = m := by
  obtain ⟨ps, hps⟩ := hg
  obtain ⟨name, data⟩ := m
  cases data <;> simp_all [adjustMetric]

theorem adjustMetricList_clearStarts :
    ∀ (ms : List Metric) (tsm : timeseriesMap),
      ((adjustMetricList tsm ms).2.1).map Metric.clearStarts =
        ms.map Metric.clearStarts := by
  intro ms
  induction ms with
  | nil => intro tsm; simp [adjustMetricList]
  | cons m rest ih =>
      intro tsm
      simp [adjustMetricList, adjustMetric_clearStarts, ih]

theorem adjustMetricList_gauges :
    ∀ (ms : List Metric) (tsm : timeseriesMap),
      List.Forall₂ (fun mx mx' => mx.isGauge → mx' = mx) ms
        (adjustMetricList tsm ms).2.1 := by
  intro ms
  induction ms with
  | nil => intro tsm; exact List.Forall₂.nil
  | cons m rest ih =>
      intro tsm
      exact List.Forall₂.cons
        (fun hg => adjustMetric_gauge_eq tsm m hg) (ih _)

theorem adjustScopeList_clearStarts :
    ∀ (sms : List ScopeMetrics) (tsm : timeseriesMap),
      ((adjustScopeList tsm sms).2.1).map ScopeMetrics.clearStarts =
        sms.map ScopeMetrics.clearStarts := by
  intro sms
  induction sms with
  | nil => intro tsm; simp [adjustScopeList]
  | cons sm rest ih =>
      intro tsm
      simp [adjustScopeList, ScopeMetrics.clearStarts,
        adjustMetricList_clearStarts, ih]

theorem adjustScopeList_gauges :
    ∀ (sms : List ScopeMetrics) (tsm : timeseriesMap),
      List.Forall₂ (fun sm sm' =>
          List.Forall₂ (fun mx mx' => mx.isGauge → mx' = mx)
            sm.metrics sm'.metrics)
        sms (adjustScopeList tsm sms).2.1 := by
  intro sms
  induction sms with
  | nil => intro tsm; exact List.Forall₂.nil
  | cons sm rest ih =>
      intro tsm
      exact List.Forall₂.cons (adjustMetricList_gauges sm.metrics tsm)
        (ih _)

theorem adjustResourceList_clearStarts :
    ∀ (rms : List ResourceMetrics) (jm : jobsMap),
      ((adjustResourceList jm rms).2.1).map ResourceMetrics.clearStarts =
        rms.map ResourceMetrics.clearStarts := by
  intro rms
  induction rms with
  | nil => intro jm; simp [adjustResourceList]
  | cons rm rest ih =>
      intro jm
      simp [adjustResourceList, ResourceMetrics.clearStarts,
        adjustScopeList_clearStarts, ih]

theorem adjustResourceList_gauges :
    ∀ (rms : List ResourceMetrics) (jm : jobsMap),
      List.Forall₂ (fun rm rm' =>
          List.Forall₂ (fun sm sm' =>
              List.Forall₂ (fun mx mx' => mx.isGauge → mx' = mx)
                sm.metrics sm'.metrics)
            rm.scopeMetrics rm'.scopeMetrics)
        rms (adjustResourceList jm rms).2.1 := by
  intro rms
  induction rms with
  | nil => intro jm; exact List.Forall₂.nil
  | cons rm rest ih =>
      intro jm
      exact List.Forall₂.cons
        (adjustScopeList_gauges rm.scopeMetrics _) (ih _)

/-- C3: `AdjustMetrics` returns the same batch with only data-point start
timestamps possibly modified — erasing all start timestamps from input
and output yields equal batches (so no resource group, scope group,
metric stream or data point is added or removed and no other field
changes) — and every gauge metric is returned entirely unchanged. -/
theorem adjust_metrics_frame_effect (jm : jobsMap) (m : Metrics) :
    ((AdjustMetrics jm m).output).clearStarts = m.clearStarts ∧
    gaugesUnchanged m (AdjustMetrics jm m).output := by
  constructor
  · simp [AdjustMetrics, Metrics.clearStarts,
      adjustResourceList_clearStarts]
  · exact adjustResourceList_gauges m.resourceMetrics jm

end TrueReset
